import Mathlib

/-!
Shallow embedding of `src/VertiScale.py` (Blender add-on
"Scale Object to Match Vertex Distance"), operator
`OBJECT_OT_scale_to_vertex_distance.execute`.

Coordinates and scalars are modelled over the real numbers.  An object's
local-to-world matrix (`obj.matrix_world`) is the composition of the parent's
world transform (when a parent exists) with the object's local
translation-rotation-scale transform; mutating `obj.scale` and `obj.location`
yields the updated transform re-derived from the mutated components.
-/

namespace VertiScale

noncomputable section

/-- A 3-component real vector, the model of `mathutils.Vector`. -/
@[ext]
structure Vec3 where
  x : ℝ
  y : ℝ
  z : ℝ

def Vec3.add (a b : Vec3) : Vec3 := ⟨a.x + b.x, a.y + b.y, a.z + b.z⟩

def Vec3.sub (a b : Vec3) : Vec3 := ⟨a.x - b.x, a.y - b.y, a.z - b.z⟩

def Vec3.smul (k : ℝ) (a : Vec3) : Vec3 := ⟨k * a.x, k * a.y, k * a.z⟩

/-- `Vector.length`: the Euclidean norm. -/
def Vec3.length (a : Vec3) : ℝ := Real.sqrt (a.x ^ 2 + a.y ^ 2 + a.z ^ 2)

/-- A 3x3 real matrix, stored by rows. -/
@[ext]
structure Mat3 where
  r0 : Vec3
  r1 : Vec3
  r2 : Vec3

def Vec3.dot (a b : Vec3) : ℝ := a.x * b.x + a.y * b.y + a.z * b.z

def Mat3.mulVec (m : Mat3) (v : Vec3) : Vec3 := ⟨m.r0.dot v, m.r1.dot v, m.r2.dot v⟩

def Mat3.mul (a b : Mat3) : Mat3 :=
  ⟨⟨a.r0.x * b.r0.x + a.r0.y * b.r1.x + a.r0.z * b.r2.x,
    a.r0.x * b.r0.y + a.r0.y * b.r1.y + a.r0.z * b.r2.y,
    a.r0.x * b.r0.z + a.r0.y * b.r1.z + a.r0.z * b.r2.z⟩,
   ⟨a.r1.x * b.r0.x + a.r1.y * b.r1.x + a.r1.z * b.r2.x,
    a.r1.x * b.r0.y + a.r1.y * b.r1.y + a.r1.z * b.r2.y,
    a.r1.x * b.r0.z + a.r1.y * b.r1.z + a.r1.z * b.r2.z⟩,
   ⟨a.r2.x * b.r0.x + a.r2.y * b.r1.x + a.r2.z * b.r2.x,
    a.r2.x * b.r0.y + a.r2.y * b.r1.y + a.r2.z * b.r2.y,
    a.r2.x * b.r0.z + a.r2.y * b.r1.z + a.r2.z * b.r2.z⟩⟩

/-- Determinant of a 3x3 matrix. -/
def Mat3.det (m : Mat3) : ℝ :=
  m.r0.x * (m.r1.y * m.r2.z - m.r1.z * m.r2.y)
    - m.r0.y * (m.r1.x * m.r2.z - m.r1.z * m.r2.x)
    + m.r0.z * (m.r1.x * m.r2.y - m.r1.y * m.r2.x)

/-- Adjugate (transpose of the cofactor matrix). -/
def Mat3.adj (m : Mat3) : Mat3 :=
  ⟨⟨m.r1.y * m.r2.z - m.r1.z * m.r2.y,
    -(m.r0.y * m.r2.z - m.r0.z * m.r2.y),
    m.r0.y * m.r1.z - m.r0.z * m.r1.y⟩,
   ⟨-(m.r1.x * m.r2.z - m.r1.z * m.r2.x),
    m.r0.x * m.r2.z - m.r0.z * m.r2.x,
    -(m.r0.x * m.r1.z - m.r0.z * m.r1.x)⟩,
   ⟨m.r1.x * m.r2.y - m.r1.y * m.r2.x,
    -(m.r0.x * m.r2.y - m.r0.y * m.r2.x),
    m.r0.x * m.r1.y - m.r0.y * m.r1.x⟩⟩

/-- Matrix inverse by the adjugate formula (the true inverse when `det ≠ 0`). -/
def Mat3.inv (m : Mat3) : Mat3 :=
  ⟨(m.adj.r0).smul (1 / m.det), (m.adj.r1).smul (1 / m.det), (m.adj.r2).smul (1 / m.det)⟩

def idMat : Mat3 := ⟨⟨1, 0, 0⟩, ⟨0, 1, 0⟩, ⟨0, 0, 1⟩⟩

/-- Diagonal scale matrix built from a per-axis scale vector. -/
def scaleMat (s : Vec3) : Mat3 := ⟨⟨s.x, 0, 0⟩, ⟨0, s.y, 0⟩, ⟨0, 0, s.z⟩⟩

/-- An affine map `v ↦ lin · v + trans`, the model of a 4x4 transform matrix. -/
@[ext]
structure Affine where
  lin : Mat3
  trans : Vec3

def Affine.apply (a : Affine) (v : Vec3) : Vec3 := (a.lin.mulVec v).add a.trans

/-- Composition of affine maps: `(a.comp b).apply v = a.apply (b.apply v)`. -/
def Affine.comp (a b : Affine) : Affine :=
  ⟨a.lin.mul b.lin, (a.lin.mulVec b.trans).add a.trans⟩

/-- `Matrix.inverted()` on an affine transform:
`[L t]⁻¹ = [L⁻¹ (-L⁻¹ t)]`. -/
def Affine.inverted (a : Affine) : Affine :=
  ⟨a.lin.inv, (a.lin.inv.mulVec a.trans).smul (-1)⟩

/-- `obj.type` values relevant to the operator. -/
inductive ObjType
  | MESH
  | OTHER
deriving DecidableEq

/-- `context.mode` values relevant to the operator. -/
inductive Mode
  | EDIT_MESH
  | OTHER
deriving DecidableEq

/-- The mutable state of the active Blender object that the operator reads and
writes: its type, `obj.location`, the rotation part of its local matrix,
`obj.scale`, and the parent's world transform (`obj.parent.matrix_world`)
when a parent exists. -/
structure ObjectState where
  objType : ObjType
  location : Vec3
  rotation : Mat3
  scale : Vec3
  parent : Option Affine

/-- A bmesh vertex: local coordinate `v.co` and selection flag `v.select`. -/
structure Vert where
  co : Vec3
  select : Bool

/-- The parts of the Blender context the operator reads. -/
structure Context where
  active_object : Option ObjectState
  mode : Mode
  verts : List Vert

/-- Report severities used by `Operator.report`. -/
inductive ReportLevel
  | ERROR
  | WARNING
  | INFO
deriving DecidableEq

/-- One `self.report(level, message)` call. -/
structure Report where
  level : ReportLevel
  message : String
deriving DecidableEq

/-- Operator return values. -/
inductive OpStatus
  | CANCELLED
  | FINISHED
deriving DecidableEq

/-- Result of one `execute` call: the returned status, the reports emitted in
order, and the active object's state afterwards (`none` when there was no
active object). -/
structure Outcome where
  status : OpStatus
  reports : List Report
  obj : Option ObjectState

/-- The object's local transform `T(location) ∘ R ∘ S` as an affine map. -/
def localAffine (obj : ObjectState) : Affine :=
  ⟨obj.rotation.mul (scaleMat obj.scale), obj.location⟩

/-- `obj.matrix_world`: the parent's world transform composed with the local
transform, or the local transform alone when there is no parent. -/
def matrix_world (obj : ObjectState) : Affine :=
  match obj.parent with
  | some P => P.comp (localAffine obj)
  | none => localAffine obj

/-- `obj.matrix_world @ v.co`: a vertex's world-space position. -/
def worldPos (obj : ObjectState) (v : Vert) : Vec3 := (matrix_world obj).apply v.co

/-- `selected_verts = [v for v in bm.verts if v.select]`. -/
def selectedVerts (ctx : Context) : List Vert := ctx.verts.filter (·.select)

/-- `current_distance = (v1_world - v2_world).length`. -/
def current_distance (obj : ObjectState) (v1 v2 : Vert) : ℝ :=
  ((worldPos obj v1).sub (worldPos obj v2)).length

/-- `min_target_distance = 1e-6`. -/
def min_target_distance : ℝ := 1e-6

/-- The clamp of lines 58-62: a non-positive requested target becomes
`min_target_distance`, a positive one is used as-is. -/
def effective_target (target_distance : ℝ) : ℝ :=
  if target_distance ≤ 0 then min_target_distance else target_distance

/-- `scale_factor = effective_target_distance / current_distance`. -/
def scale_factor (obj : ObjectState) (v1 v2 : Vert) (target_distance : ℝ) : ℝ :=
  effective_target target_distance / current_distance obj v1 v2

/-- The warning report emitted when the requested target is clamped
(line 59, with the value formatted to six decimal places). -/
def clamp_warning : Report :=
  ⟨.WARNING, "Target distance cannot be 0; using minimum value 0.000001"⟩

/-- `pivot = (v1_world + v2_world) * 0.5` (line 73). -/
def pivotOf (v1_world v2_world : Vec3) : Vec3 := (v1_world.add v2_world).smul 0.5

/-- `new_world_loc = pivot + (old_world_loc - pivot) * scale_factor`
(lines 76-77), where `old_world_loc = obj.matrix_world.to_translation()`. -/
def newWorldLoc (obj : ObjectState) (v1_world v2_world : Vec3) (sf : ℝ) : Vec3 :=
  (pivotOf v1_world v2_world).add
    (((matrix_world obj).trans.sub (pivotOf v1_world v2_world)).smul sf)

/-- Lines 72-86: the mutation step.  Multiplies `obj.scale` by the factor and
writes `obj.location` back (through the parent's inverted world transform when
a parent exists) so that the pivot stays fixed. -/
def applyScale (obj : ObjectState) (v1_world v2_world : Vec3) (sf : ℝ) : ObjectState :=
  { obj with
    scale := obj.scale.smul sf
    location :=
      match obj.parent with
      | some P => P.inverted.apply (newWorldLoc obj v1_world v2_world sf)
      | none => newWorldLoc obj v1_world v2_world sf }

/-- Lines 48-89 of `execute`: everything after the selection-count check, for
selected vertices `v1`, `v2`. -/
def scalePhase (obj : ObjectState) (v1 v2 : Vert) (target_distance : ℝ) : Outcome :=
  if current_distance obj v1 v2 = 0 then
    { status := .CANCELLED
      reports := [⟨.ERROR, "Selected vertices are at the same location"⟩]
      obj := some obj }
  else
    let warn := if target_distance ≤ 0 then [clamp_warning] else []
    let sf := scale_factor obj v1 v2 target_distance
    if |sf - 1| < 1e-6 then
      { status := .FINISHED, reports := warn ++ [⟨.INFO, "No scaling needed"⟩], obj := some obj }
    else
      { status := .FINISHED
        reports := warn ++ [⟨.INFO, "Object scaled successfully"⟩]
        obj := some (applyScale obj (worldPos obj v1) (worldPos obj v2) sf) }

/-- `OBJECT_OT_scale_to_vertex_distance.execute` (lines 29-89). -/
def execute (ctx : Context) (target_distance : ℝ) : Outcome :=
  match ctx.active_object with
  | none =>
      { status := .CANCELLED
        reports := [⟨.ERROR, "Active object is not a mesh"⟩]
        obj := none }
  | some obj =>
      if obj.objType = .MESH then
        if ctx.mode = .EDIT_MESH then
          match selectedVerts ctx with
          | [v1, v2] => scalePhase obj v1 v2 target_distance
          | _ =>
              { status := .CANCELLED
                reports := [⟨.ERROR, "Select exactly two vertices"⟩]
                obj := some obj }
        else
          { status := .CANCELLED
            reports := [⟨.ERROR, "Must be in Edit Mode"⟩]
            obj := some obj }
      else
        { status := .CANCELLED
          reports := [⟨.ERROR, "Active object is not a mesh"⟩]
          obj := some obj }

/-- The four validated preconditions of §4.1: a mesh active object, edit mode,
exactly two selected vertices, and distinct world positions. -/
def PreOK (ctx : Context) (obj : ObjectState) (v1 v2 : Vert) : Prop :=
  ctx.active_object = some obj ∧ obj.objType = .MESH ∧ ctx.mode = .EDIT_MESH ∧
    selectedVerts ctx = [v1, v2] ∧ worldPos obj v1 ≠ worldPos obj v2

/-- The parent transform, when present, is invertible (its linear part has a
nonzero determinant) — the condition under which `Matrix.inverted()` is the
true inverse. -/
def ParentOK (obj : ObjectState) : Prop :=
  ∀ P, obj.parent = some P → P.lin.det ≠ 0

/-- World midpoint of the two selected vertices: `(v1_world + v2_world) * 0.5`. -/
def midpoint (obj : ObjectState) (v1 v2 : Vert) : Vec3 :=
  ((worldPos obj v1).add (worldPos obj v2)).smul 0.5

/-- Marker for a (never-raised) division-by-zero at line 65. -/
inductive DivErr
  | divisionByZero
deriving DecidableEq

/-- `scalePhase` with the division of line 65 guarded explicitly: before
forming `scale_factor` the divisor is tested once more, and a zero divisor
would surface as `DivErr.divisionByZero`. -/
def scalePhaseChecked (obj : ObjectState) (v1 v2 : Vert) (target_distance : ℝ) :
    Except DivErr Outcome :=
  if current_distance obj v1 v2 = 0 then
    .ok
      { status := .CANCELLED
        reports := [⟨.ERROR, "Selected vertices are at the same location"⟩]
        obj := some obj }
  else
    if current_distance obj v1 v2 = 0 then .error .divisionByZero
    else
      let warn := if target_distance ≤ 0 then [clamp_warning] else []
      let sf := scale_factor obj v1 v2 target_distance
      if |sf - 1| < 1e-6 then
        .ok { status := .FINISHED, reports := warn ++ [⟨.INFO, "No scaling needed"⟩],
              obj := some obj }
      else
        .ok { status := .FINISHED
              reports := warn ++ [⟨.INFO, "Object scaled successfully"⟩]
              obj := some (applyScale obj (worldPos obj v1) (worldPos obj v2) sf) }

/-- `execute` with the explicit division-by-zero guard. -/
def executeChecked (ctx : Context) (target_distance : ℝ) : Except DivErr Outcome :=
  match ctx.active_object with
  | none =>
      .ok { status := .CANCELLED
            reports := [⟨.ERROR, "Active object is not a mesh"⟩]
            obj := none }
  | some obj =>
      if obj.objType = .MESH then
        if ctx.mode = .EDIT_MESH then
          match selectedVerts ctx with
          | [v1, v2] => scalePhaseChecked obj v1 v2 target_distance
          | _ =>
              .ok { status := .CANCELLED
                    reports := [⟨.ERROR, "Select exactly two vertices"⟩]
                    obj := some obj }
        else
          .ok { status := .CANCELLED
                reports := [⟨.ERROR, "Must be in Edit Mode"⟩]
                obj := some obj }
      else
        .ok { status := .CANCELLED
              reports := [⟨.ERROR, "Active object is not a mesh"⟩]
              obj := some obj }

/-- The stored value of the `target_distance` `FloatProperty` (lines 21-27):
`min=0` makes the host clamp any assigned value below 0 up to 0, so the
stored value is the requested value clamped from below by 0. -/
def target_distance_stored (requested : ℝ) : ℝ := max requested 0

/-! ### Concrete states used as witnesses and counterexamples -/

/-- An untransformed mesh object: located at the origin, identity rotation,
unit scale, no parent. -/
def objW : ObjectState := ⟨.MESH, ⟨0, 0, 0⟩, idMat, ⟨1, 1, 1⟩, none⟩

def vA : Vert := ⟨⟨0, 0, 0⟩, true⟩

def vB : Vert := ⟨⟨2, 0, 0⟩, true⟩

/-- A selected vertex far from the origin (world distance 10^7 from `vA`). -/
def vC : Vert := ⟨⟨10000000, 0, 0⟩, true⟩

/-- An unselected vertex. -/
def vD : Vert := ⟨⟨5, 0, 0⟩, false⟩

/-- Edit-mode context with exactly `vA`, `vB` selected (distance 2). -/
def ctxW : Context := ⟨some objW, .EDIT_MESH, [vA, vB]⟩

/-- Edit-mode context with exactly `vA`, `vC` selected (distance 10^7). -/
def ctxL : Context := ⟨some objW, .EDIT_MESH, [vA, vC]⟩

/-- Edit-mode context with three selected vertices. -/
def ctx3 : Context := ⟨some objW, .EDIT_MESH, [vA, vB, vC]⟩

/-- Edit-mode context with zero selected vertices. -/
def ctx0 : Context := ⟨some objW, .EDIT_MESH, [vD]⟩

/-- A context with no active object. -/
def ctxN : Context := ⟨none, .OTHER, []⟩

/-- The object produced by running the operator on `ctxW` with target 1. -/
def objQ : ObjectState :=
  applyScale objW (worldPos objW vA) (worldPos objW vB) (scale_factor objW vA vB 1)

/-! ### Algebraic facts about the embedded vector and transform operations -/

lemma tol_val : (1e-6 : ℝ) = 1 / 1000000 := by norm_num

lemma half_val : (0.5 : ℝ) = 1 / 2 := by norm_num

lemma min_target_val : min_target_distance = 1 / 1000000 := by
  rw [min_target_distance]; norm_num

lemma Vec3.length_nonneg (a : Vec3) : 0 ≤ a.length := Real.sqrt_nonneg _

lemma Vec3.length_smul (k : ℝ) (a : Vec3) : (a.smul k).length = |k| * a.length := by
  simp only [Vec3.smul, Vec3.length]
  have h : (k * a.x) ^ 2 + (k * a.y) ^ 2 + (k * a.z) ^ 2
      = k ^ 2 * (a.x ^ 2 + a.y ^ 2 + a.z ^ 2) := by ring
  rw [h, Real.sqrt_mul (sq_nonneg k), Real.sqrt_sq_eq_abs]

lemma Vec3.length_eq_zero {a : Vec3} : a.length = 0 ↔ a = ⟨0, 0, 0⟩ := by
  constructor
  · intro h
    rw [Vec3.length] at h
    have hs : a.x ^ 2 + a.y ^ 2 + a.z ^ 2 = 0 :=
      (Real.sqrt_eq_zero (by positivity)).mp h
    have hx : a.x = 0 := by nlinarith [sq_nonneg a.x, sq_nonneg a.y, sq_nonneg a.z]
    have hy : a.y = 0 := by nlinarith [sq_nonneg a.x, sq_nonneg a.y, sq_nonneg a.z]
    have hz : a.z = 0 := by nlinarith [sq_nonneg a.x, sq_nonneg a.y, sq_nonneg a.z]
    cases a
    simp_all
  · intro h
    rw [h, Vec3.length]
    simp [Real.sqrt_eq_zero]

lemma Vec3.sub_self_eq_zero {a b : Vec3} : a.sub b = ⟨0, 0, 0⟩ ↔ a = b := by
  cases a; cases b
  simp [Vec3.sub, Vec3.ext_iff, sub_eq_zero]

lemma current_distance_eq_zero {obj : ObjectState} {v1 v2 : Vert} :
    current_distance obj v1 v2 = 0 ↔ worldPos obj v1 = worldPos obj v2 := by
  rw [current_distance, Vec3.length_eq_zero, Vec3.sub_self_eq_zero]

lemma current_distance_pos {obj : ObjectState} {v1 v2 : Vert}
    (h : worldPos obj v1 ≠ worldPos obj v2) : 0 < current_distance obj v1 v2 :=
  lt_of_le_of_ne (Vec3.length_nonneg _) fun h0 => h (current_distance_eq_zero.mp h0.symm)

lemma Vec3.smul_smul (a b : ℝ) (v : Vec3) : (v.smul a).smul b = v.smul (b * a) := by
  simp [Vec3.smul, Vec3.ext_iff]; constructor
  · ring
  constructor <;> ring

lemma Vec3.smul_one (v : Vec3) : v.smul 1 = v := by
  cases v; simp [Vec3.smul]

lemma Mat3.mulVec_add (m : Mat3) (a b : Vec3) :
    m.mulVec (a.add b) = (m.mulVec a).add (m.mulVec b) := by
  simp only [Mat3.mulVec, Vec3.add, Vec3.dot, Vec3.ext_iff]
  refine ⟨by ring, by ring, by ring⟩

lemma Mat3.mulVec_smulVec (m : Mat3) (k : ℝ) (a : Vec3) :
    m.mulVec (a.smul k) = (m.mulVec a).smul k := by
  simp only [Mat3.mulVec, Vec3.smul, Vec3.dot, Vec3.ext_iff]
  refine ⟨by ring, by ring, by ring⟩

lemma Mat3.mulVec_adj (m : Mat3) (v : Vec3) :
    m.mulVec (m.adj.mulVec v) = v.smul m.det := by
  simp only [Mat3.mulVec, Mat3.adj, Mat3.det, Vec3.smul, Vec3.dot, Vec3.ext_iff]
  refine ⟨by ring, by ring, by ring⟩

lemma Mat3.inv_mulVec_eq (m : Mat3) (v : Vec3) :
    m.inv.mulVec v = (m.adj.mulVec v).smul (1 / m.det) := by
  simp only [Mat3.inv, Mat3.mulVec, Vec3.smul, Vec3.dot, Vec3.ext_iff]
  refine ⟨by ring, by ring, by ring⟩

lemma Mat3.mulVec_inv (m : Mat3) (h : m.det ≠ 0) (v : Vec3) :
    m.mulVec (m.inv.mulVec v) = v := by
  rw [Mat3.inv_mulVec_eq, Mat3.mulVec_smulVec, Mat3.mulVec_adj, Vec3.smul_smul,
    one_div_mul_cancel h, Vec3.smul_one]

lemma Affine.comp_apply (a b : Affine) (v : Vec3) :
    (a.comp b).apply v = a.apply (b.apply v) := by
  simp only [Affine.comp, Affine.apply, Mat3.mul, Mat3.mulVec, Vec3.add, Vec3.dot,
    Vec3.ext_iff]
  refine ⟨by ring, by ring, by ring⟩

lemma Affine.comp_trans (a b : Affine) : (a.comp b).trans = a.apply b.trans := rfl

lemma Affine.apply_add_split (a : Affine) (x y : Vec3) :
    a.apply (x.add y) = (a.lin.mulVec x).add (a.apply y) := by
  simp only [Affine.apply, Mat3.mulVec, Vec3.add, Vec3.dot, Vec3.ext_iff]
  refine ⟨by ring, by ring, by ring⟩

lemma Affine.apply_inverted (a : Affine) (h : a.lin.det ≠ 0) (w : Vec3) :
    a.apply (a.inverted.apply w) = w := by
  show (a.lin.mulVec ((a.lin.inv.mulVec w).add ((a.lin.inv.mulVec a.trans).smul (-1)))).add
      a.trans = w
  rw [Mat3.mulVec_add, Mat3.mulVec_smulVec, Mat3.mulVec_inv a.lin h, Mat3.mulVec_inv a.lin h]
  cases a.trans; cases w
  simp only [Vec3.add, Vec3.smul, Vec3.ext_iff]
  refine ⟨by ring, by ring, by ring⟩

lemma localAffine_trans (obj : ObjectState) : (localAffine obj).trans = obj.location := rfl

lemma localAffine_apply (obj : ObjectState) (c : Vec3) :
    (localAffine obj).apply c =
      ((obj.rotation.mul (scaleMat obj.scale)).mulVec c).add obj.location := rfl

lemma mul_scaleMat_smul (R : Mat3) (s : Vec3) (k : ℝ) (c : Vec3) :
    (R.mul (scaleMat (s.smul k))).mulVec c = ((R.mul (scaleMat s)).mulVec c).smul k := by
  simp only [Mat3.mul, scaleMat, Mat3.mulVec, Vec3.smul, Vec3.dot, Vec3.ext_iff]
  refine ⟨by ring, by ring, by ring⟩

lemma homothety_rearrange (A N q : Vec3) (k : ℝ) :
    (A.smul k).add N = N.add (((A.add q).sub q).smul k) := by
  simp only [Vec3.add, Vec3.sub, Vec3.smul, Vec3.ext_iff]
  refine ⟨by ring, by ring, by ring⟩

/-- The updated local-to-world transform sends local point `c` to
`new_world_loc + sf * (old world image of c - old_world_loc)`: rescaling the
scale component and rewriting the location acts as a homothety with centre
`new_world_loc` relative to the old transform. -/
lemma applyScale_apply (obj : ObjectState) (hP : ParentOK obj) (w1 w2 : Vec3) (k : ℝ)
    (c : Vec3) :
    (matrix_world (applyScale obj w1 w2 k)).apply c =
      (newWorldLoc obj w1 w2 k).add
        ((((matrix_world obj).apply c).sub ((matrix_world obj).trans)).smul k) := by
  cases hpar : obj.parent with
  | none =>
      simp only [matrix_world, applyScale, hpar, localAffine, newWorldLoc, pivotOf,
        Affine.apply, Mat3.mulVec, Mat3.mul, scaleMat, Vec3.add, Vec3.sub, Vec3.smul,
        Vec3.dot, Vec3.ext_iff]
      refine ⟨by ring, by ring, by ring⟩
  | some P =>
      have hdet := hP P hpar
      have hmw : matrix_world (applyScale obj w1 w2 k) =
          Affine.comp P ⟨obj.rotation.mul (scaleMat (obj.scale.smul k)),
            P.inverted.apply (newWorldLoc obj w1 w2 k)⟩ := by
        simp [matrix_world, applyScale, hpar, localAffine]
      rw [hmw, Affine.comp_apply]
      have h1 : (⟨obj.rotation.mul (scaleMat (obj.scale.smul k)),
          P.inverted.apply (newWorldLoc obj w1 w2 k)⟩ : Affine).apply c =
          ((((obj.rotation.mul (scaleMat obj.scale)).mulVec c).smul k).add
            (P.inverted.apply (newWorldLoc obj w1 w2 k))) := by
        show ((obj.rotation.mul (scaleMat (obj.scale.smul k))).mulVec c).add _ = _
        rw [mul_scaleMat_smul]
      rw [h1, Affine.apply_add_split, Affine.apply_inverted P hdet, Mat3.mulVec_smulVec]
      simp only [matrix_world, hpar, Affine.comp_apply, Affine.comp_trans,
        localAffine_apply, localAffine_trans]
      rw [Affine.apply_add_split]
      exact homothety_rearrange _ _ _ k

/-- The image difference of two local points under the updated transform is the
old image difference scaled by the factor — no invertibility of the parent
transform is needed. -/
lemma worldPos_applyScale_sub (obj : ObjectState) (w1 w2 : Vec3) (k : ℝ) (v v' : Vert) :
    (worldPos (applyScale obj w1 w2 k) v).sub (worldPos (applyScale obj w1 w2 k) v') =
      ((worldPos obj v).sub (worldPos obj v')).smul k := by
  cases hpar : obj.parent with
  | none =>
      simp only [worldPos, matrix_world, applyScale, hpar, localAffine, Affine.apply,
        Mat3.mulVec, Mat3.mul, scaleMat, Vec3.add, Vec3.sub, Vec3.smul, Vec3.dot,
        Vec3.ext_iff]
      refine ⟨by ring, by ring, by ring⟩
  | some P =>
      simp only [worldPos, matrix_world, applyScale, hpar, localAffine, Affine.comp,
        Affine.apply, Mat3.mulVec, Mat3.mul, scaleMat, Vec3.add, Vec3.sub, Vec3.smul,
        Vec3.dot, Vec3.ext_iff]
      refine ⟨by ring, by ring, by ring⟩

/-- World position of a vertex under the updated transform (parent invertible
when present). -/
lemma worldPos_applyScale (obj : ObjectState) (hP : ParentOK obj) (w1 w2 : Vec3)
    (k : ℝ) (v : Vert) :
    worldPos (applyScale obj w1 w2 k) v =
      (newWorldLoc obj w1 w2 k).add
        (((worldPos obj v).sub ((matrix_world obj).trans)).smul k) := by
  rw [worldPos, worldPos, applyScale_apply obj hP]

/-! ### Running the embedded operator along its branches -/

lemma execute_preOK {ctx : Context} {obj : ObjectState} {v1 v2 : Vert}
    (h : PreOK ctx obj v1 v2) (t : ℝ) : execute ctx t = scalePhase obj v1 v2 t := by
  obtain ⟨h1, h2, h3, h4, _⟩ := h
  simp [execute, h1, h2, h3, h4]

lemma scalePhase_degenerate {obj : ObjectState} {v1 v2 : Vert} (t : ℝ)
    (hd : current_distance obj v1 v2 = 0) :
    scalePhase obj v1 v2 t =
      { status := .CANCELLED
        reports := [⟨.ERROR, "Selected vertices are at the same location"⟩]
        obj := some obj } := by
  simp [scalePhase, hd]

lemma scalePhase_noop {obj : ObjectState} {v1 v2 : Vert} {t : ℝ}
    (hd : current_distance obj v1 v2 ≠ 0)
    (hk : |scale_factor obj v1 v2 t - 1| < 1e-6) :
    scalePhase obj v1 v2 t =
      { status := .FINISHED
        reports := (if t ≤ 0 then [clamp_warning] else []) ++ [⟨.INFO, "No scaling needed"⟩]
        obj := some obj } := by
  simp [scalePhase, hd, hk]

lemma scalePhase_scaled {obj : ObjectState} {v1 v2 : Vert} {t : ℝ}
    (hd : current_distance obj v1 v2 ≠ 0)
    (hk : ¬ |scale_factor obj v1 v2 t - 1| < 1e-6) :
    scalePhase obj v1 v2 t =
      { status := .FINISHED
        reports :=
          (if t ≤ 0 then [clamp_warning] else []) ++ [⟨.INFO, "Object scaled successfully"⟩]
        obj := some (applyScale obj (worldPos obj v1) (worldPos obj v2)
          (scale_factor obj v1 v2 t)) } := by
  simp [scalePhase, hd, hk]

lemma effective_target_pos (t : ℝ) : 0 < effective_target t := by
  rw [effective_target]
  split_ifs with h
  · rw [min_target_val]; norm_num
  · exact lt_of_not_le h

lemma scale_factor_pos {obj : ObjectState} {v1 v2 : Vert}
    (h : worldPos obj v1 ≠ worldPos obj v2) (t : ℝ) : 0 < scale_factor obj v1 v2 t :=
  div_pos (effective_target_pos t) (current_distance_pos h)

lemma current_distance_applyScale (obj : ObjectState) (w1 w2 : Vec3) (k : ℝ)
    (v1 v2 : Vert) :
    current_distance (applyScale obj w1 w2 k) v1 v2 = |k| * current_distance obj v1 v2 := by
  rw [current_distance, worldPos_applyScale_sub, Vec3.length_smul, current_distance]

/-- On the scaling branch the new world distance of the two selected vertices
is exactly the effective target. -/
lemma post_distance_scaled {obj : ObjectState} {v1 v2 : Vert} (t : ℝ)
    (hne : worldPos obj v1 ≠ worldPos obj v2) :
    current_distance
        (applyScale obj (worldPos obj v1) (worldPos obj v2) (scale_factor obj v1 v2 t))
        v1 v2 = effective_target t := by
  rw [current_distance_applyScale, abs_of_pos (scale_factor_pos hne t), scale_factor,
    div_mul_cancel₀ _ (ne_of_gt (current_distance_pos hne))]

/-! ### Evaluating the concrete states -/

lemma parentOK_objW : ParentOK objW := by
  intro P h
  simp [objW] at h

lemma worldPos_objW (v : Vert) : worldPos objW v = v.co := by
  simp only [worldPos, matrix_world, objW, localAffine, Affine.apply, idMat, scaleMat,
    Mat3.mul, Mat3.mulVec, Vec3.dot, Vec3.add, Vec3.ext_iff]
  norm_num

lemma length_x (a : ℝ) : Vec3.length ⟨a, 0, 0⟩ = |a| := by
  show Real.sqrt (a ^ 2 + 0 ^ 2 + 0 ^ 2) = |a|
  rw [show a ^ 2 + 0 ^ 2 + 0 ^ 2 = a ^ 2 by ring, Real.sqrt_sq_eq_abs]

lemma current_distance_ctxW : current_distance objW vA vB = 2 := by
  rw [current_distance, worldPos_objW, worldPos_objW]
  show Vec3.length (Vec3.sub ⟨0, 0, 0⟩ ⟨2, 0, 0⟩) = 2
  rw [show Vec3.sub ⟨0, 0, 0⟩ ⟨2, 0, 0⟩ = (⟨-2, 0, 0⟩ : Vec3) by
    norm_num [Vec3.sub, Vec3.ext_iff]]
  rw [length_x]
  norm_num

lemma current_distance_ctxL : current_distance objW vA vC = 10000000 := by
  rw [current_distance, worldPos_objW, worldPos_objW]
  show Vec3.length (Vec3.sub ⟨0, 0, 0⟩ ⟨10000000, 0, 0⟩) = 10000000
  rw [show Vec3.sub ⟨0, 0, 0⟩ ⟨10000000, 0, 0⟩ = (⟨-10000000, 0, 0⟩ : Vec3) by
    norm_num [Vec3.sub, Vec3.ext_iff]]
  rw [length_x]
  norm_num

lemma preOK_ctxW : PreOK ctxW objW vA vB := by
  refine ⟨rfl, rfl, rfl, by simp [selectedVerts, ctxW, vA, vB], ?_⟩
  rw [worldPos_objW, worldPos_objW]
  simp only [vA, vB, Vec3.ext_iff, not_and]
  intro h
  norm_num at h

lemma preOK_ctxL : PreOK ctxL objW vA vC := by
  refine ⟨rfl, rfl, rfl, by simp [selectedVerts, ctxL, vA, vC], ?_⟩
  rw [worldPos_objW, worldPos_objW]
  simp only [vA, vC, Vec3.ext_iff, not_and]
  intro h
  norm_num at h

/-! ### The claims -/

/-- C3: for every invocation that passes all precondition checks and whose
computed `scale_factor = effective_target / current_distance` satisfies
`|scale_factor - 1| < 1e-6`, the operation reports success with an
informational note and leaves the object's scale and location completely
unchanged. -/
theorem C3_noop_no_mutation (ctx : Context) (obj : ObjectState) (v1 v2 : Vert) (t : ℝ)
    (hpre : PreOK ctx obj v1 v2)
    (hk : |scale_factor obj v1 v2 t - 1| < 1e-6) :
    (execute ctx t).status = .FINISHED ∧
      (⟨.INFO, "No scaling needed"⟩ : Report) ∈ (execute ctx t).reports ∧
      (execute ctx t).obj = some obj := by
  have hd : current_distance obj v1 v2 ≠ 0 := ne_of_gt (current_distance_pos hpre.2.2.2.2)
  rw [execute_preOK hpre, scalePhase_noop hd hk]
  refine ⟨rfl, ?_, rfl⟩
  simp

/-- Witness for C3: on the untransformed object with selected vertices at
distance 2 and target 2, the scale factor is 1 and nothing is mutated. -/
theorem C3_witness :
    PreOK ctxW objW vA vB ∧ |scale_factor objW vA vB 2 - 1| < 1e-6 ∧
      (execute ctxW 2).status = .FINISHED ∧
      (⟨.INFO, "No scaling needed"⟩ : Report) ∈ (execute ctxW 2).reports ∧
      (execute ctxW 2).obj = some objW := by
  have hsf : scale_factor objW vA vB 2 = 1 := by
    rw [scale_factor, current_distance_ctxW, effective_target]
    norm_num
  have hk : |scale_factor objW vA vB 2 - 1| < 1e-6 := by rw [hsf]; norm_num
  obtain ⟨h1, h2, h3⟩ := C3_noop_no_mutation ctxW objW vA vB 2 preOK_ctxW hk
  exact ⟨preOK_ctxW, hk, h1, h2, h3⟩

/-- C5: on every failing (`CANCELLED`) path the active object is exactly as it
was before the invocation, and the object changes only on the full successful
scaling path (which reports "Object scaled successfully"). -/
theorem C5_cancel_atomic (ctx : Context) (t : ℝ) :
    ((execute ctx t).status = .CANCELLED → (execute ctx t).obj = ctx.active_object) ∧
      ((execute ctx t).obj ≠ ctx.active_object →
        (execute ctx t).status = .FINISHED ∧
          (⟨.INFO, "Object scaled successfully"⟩ : Report) ∈ (execute ctx t).reports) := by
  cases hao : ctx.active_object with
  | none => simp [execute, hao]
  | some obj =>
      by_cases hm : obj.objType = ObjType.MESH
      · by_cases hmode : ctx.mode = Mode.EDIT_MESH
        · rcases hsel : selectedVerts ctx with _ | ⟨a, _ | ⟨b, _ | ⟨c, l⟩⟩⟩
          · simp [execute, hao, hm, hmode, hsel]
          · simp [execute, hao, hm, hmode, hsel]
          · by_cases hd : current_distance obj a b = 0
            · simp [execute, hao, hm, hmode, hsel, scalePhase, hd]
            · by_cases hk : |scale_factor obj a b t - 1| < 1e-6
              · simp [execute, hao, hm, hmode, hsel, scalePhase, hd, hk]
              · simp [execute, hao, hm, hmode, hsel, scalePhase, hd, hk]
          · simp [execute, hao, hm, hmode, hsel]
        · simp [execute, hao, hm, hmode]
      · simp [execute, hao, hm]

/-- Witness for C5: with no active object the operation is cancelled and the
(absent) active object is untouched. -/
theorem C5_witness :
    (execute ctxN 1).status = .CANCELLED ∧ (execute ctxN 1).obj = ctxN.active_object :=
  ⟨rfl, (C5_cancel_atomic ctxN 1).1 rfl⟩

/-- C7 as amended: when the selection count differs from two the operation is
cancelled with the fixed report "Select exactly two vertices" (which does not
mention the actual count) and the object is unchanged. -/
theorem C7_selection_count (ctx : Context) (obj : ObjectState) (t : ℝ)
    (h1 : ctx.active_object = some obj) (h2 : obj.objType = .MESH)
    (h3 : ctx.mode = .EDIT_MESH) (h4 : (selectedVerts ctx).length ≠ 2) :
    execute ctx t =
      { status := .CANCELLED
        reports := [⟨.ERROR, "Select exactly two vertices"⟩]
        obj := some obj } := by
  rcases hsel : selectedVerts ctx with _ | ⟨a, _ | ⟨b, _ | ⟨c, l⟩⟩⟩
  · simp [execute, h1, h2, h3, hsel]
  · simp [execute, h1, h2, h3, hsel]
  · rw [hsel] at h4; simp at h4
  · simp [execute, h1, h2, h3, hsel]

/-- Counterexample for C7 as stated: with three selected vertices (and likewise
with zero) the error report is the fixed digit-free string
"Select exactly two vertices", so it does not include the actual selection
count. -/
theorem C7_counterexample :
    (execute ctx3 1).status = .CANCELLED ∧
      (execute ctx3 1).reports = [⟨.ERROR, "Select exactly two vertices"⟩] ∧
      (execute ctx0 1).reports = (execute ctx3 1).reports ∧
      ("Select exactly two vertices".toList.all fun c => !c.isDigit) = true := by
  refine ⟨rfl, rfl, rfl, by decide⟩

/-- Witness for C7 as amended, at selection count 3. -/
theorem C7_witness :
    (selectedVerts ctx3).length ≠ 2 ∧
      execute ctx3 1 =
        { status := .CANCELLED
          reports := [⟨.ERROR, "Select exactly two vertices"⟩]
          obj := some objW } := by
  have h4 : (selectedVerts ctx3).length ≠ 2 := by
    simp [selectedVerts, ctx3, vA, vB, vC]
  exact ⟨h4, C7_selection_count ctx3 objW 1 rfl rfl rfl h4⟩

/-- C8: past the first three checks, the operation is cancelled with the
degenerate-selection error exactly when the two selected vertices coincide in
world space; when they are distinct that error is never raised and the
operation finishes. -/
theorem C8_degenerate (ctx : Context) (obj : ObjectState) (v1 v2 : Vert) (t : ℝ)
    (h1 : ctx.active_object = some obj) (h2 : obj.objType = .MESH)
    (h3 : ctx.mode = .EDIT_MESH) (h4 : selectedVerts ctx = [v1, v2]) :
    (worldPos obj v1 = worldPos obj v2 →
        execute ctx t =
          { status := .CANCELLED
            reports := [⟨.ERROR, "Selected vertices are at the same location"⟩]
            obj := some obj }) ∧
      (worldPos obj v1 ≠ worldPos obj v2 →
        (execute ctx t).status = .FINISHED ∧
          (⟨.ERROR, "Selected vertices are at the same location"⟩ : Report) ∉
            (execute ctx t).reports) := by
  have hrun : execute ctx t = scalePhase obj v1 v2 t := by
    simp [execute, h1, h2, h3, h4]
  constructor
  · intro heq
    rw [hrun, scalePhase_degenerate t (current_distance_eq_zero.mpr heq)]
  · intro hne
    have hd : current_distance obj v1 v2 ≠ 0 := ne_of_gt (current_distance_pos hne)
    rw [hrun]
    by_cases hk : |scale_factor obj v1 v2 t - 1| < 1e-6
    · rw [scalePhase_noop hd hk]
      refine ⟨rfl, ?_⟩
      split_ifs <;> simp [clamp_warning]
    · rw [scalePhase_scaled hd hk]
      refine ⟨rfl, ?_⟩
      split_ifs <;> simp [clamp_warning]

/-- Witness for C8: distinct world positions, so the operation finishes and
the degenerate-selection error is absent. -/
theorem C8_witness :
    worldPos objW vA ≠ worldPos objW vB ∧
      (execute ctxW 2).status = .FINISHED ∧
      (⟨.ERROR, "Selected vertices are at the same location"⟩ : Report) ∉
        (execute ctxW 2).reports := by
  have hne : worldPos objW vA ≠ worldPos objW vB := preOK_ctxW.2.2.2.2
  obtain ⟨h1, h2⟩ :=
    (C8_degenerate ctxW objW vA vB 2 rfl rfl rfl preOK_ctxW.2.2.2.1).2 hne
  exact ⟨hne, h1, h2⟩

/-- C9: the division at line 65 is reached only after the
`current_distance == 0` check has been passed, so the explicit
division-by-zero guard of `executeChecked` can never fire: the guarded
embedding always returns `.ok` of the unguarded (total) `execute`. -/
theorem C9_division_safe (ctx : Context) (t : ℝ) :
    executeChecked ctx t = .ok (execute ctx t) := by
  cases hao : ctx.active_object with
  | none => simp [execute, executeChecked, hao]
  | some obj =>
      by_cases hm : obj.objType = ObjType.MESH
      · by_cases hmode : ctx.mode = Mode.EDIT_MESH
        · rcases hsel : selectedVerts ctx with _ | ⟨a, _ | ⟨b, _ | ⟨c, l⟩⟩⟩
          · simp [execute, executeChecked, hao, hm, hmode, hsel]
          · simp [execute, executeChecked, hao, hm, hmode, hsel]
          · by_cases hd : current_distance obj a b = 0
            · simp [execute, executeChecked, hao, hm, hmode, hsel, scalePhase,
                scalePhaseChecked, hd]
            · by_cases hk : |scale_factor obj a b t - 1| < 1e-6
              · simp [execute, executeChecked, hao, hm, hmode, hsel, scalePhase,
                  scalePhaseChecked, hd, hk]
              · simp [execute, executeChecked, hao, hm, hmode, hsel, scalePhase,
                  scalePhaseChecked, hd, hk]
          · simp [execute, executeChecked, hao, hm, hmode, hsel]
        · simp [execute, executeChecked, hao, hm, hmode]
      · simp [execute, executeChecked, hao, hm]

/-- C10: the property's `min=0` clamps the stored target from below by 0, so a
negative stored value is impossible, the clamping branch can fire only when
the stored value is exactly 0, and every strictly positive stored target is
used as-is with no clamp warning. -/
theorem C10_property_min (requested : ℝ) (ctx : Context) (obj : ObjectState)
    (v1 v2 : Vert) (hpre : PreOK ctx obj v1 v2) :
    0 ≤ target_distance_stored requested ∧
      (target_distance_stored requested ≤ 0 ↔ target_distance_stored requested = 0) ∧
      (0 < target_distance_stored requested →
        effective_target (target_distance_stored requested) =
            target_distance_stored requested ∧
          clamp_warning ∉ (execute ctx (target_distance_stored requested)).reports) := by
  have h0 : 0 ≤ target_distance_stored requested := le_max_right _ _
  refine ⟨h0, ⟨fun h => le_antisymm h h0, fun h => le_of_eq h⟩, fun hpos => ?_⟩
  have hnle : ¬ target_distance_stored requested ≤ 0 := not_le.mpr hpos
  refine ⟨by rw [effective_target, if_neg hnle], ?_⟩
  have hne := hpre.2.2.2.2
  have hd : current_distance obj v1 v2 ≠ 0 := ne_of_gt (current_distance_pos hne)
  rw [execute_preOK hpre]
  by_cases hk : |scale_factor obj v1 v2 (target_distance_stored requested) - 1| < 1e-6
  · rw [scalePhase_noop hd hk, if_neg hnle]
    simp [clamp_warning]
  · rw [scalePhase_scaled hd hk, if_neg hnle]
    simp [clamp_warning]

/-- Witness for C10: requested target 1e-9 (strictly between 0 and the 1e-6
threshold) is stored as-is, kept as-is by the clamp, and produces no warning. -/
theorem C10_witness :
    PreOK ctxW objW vA vB ∧ 0 < target_distance_stored 1e-9 ∧
      effective_target (target_distance_stored 1e-9) = target_distance_stored 1e-9 ∧
      clamp_warning ∉ (execute ctxW (target_distance_stored 1e-9)).reports := by
  have hpos : 0 < target_distance_stored 1e-9 := by
    rw [target_distance_stored]
    rw [lt_max_iff]
    left
    norm_num
  obtain ⟨h1, h2⟩ :=
    (C10_property_min 1e-9 ctxW objW vA vB preOK_ctxW).2.2 hpos
  exact ⟨preOK_ctxW, hpos, h1, h2⟩

/-- C1 as amended: for every invocation passing the four precondition checks
with positive requested target `t`, the post-operation world distance of the
two selected vertices equals `t` within RELATIVE tolerance 1e-6 of the
pre-operation distance (on the scaling branch it equals `t` exactly; on the
no-op branch the guaranteed bound is `1e-6 * current_distance`). -/
theorem C1_distance_relative (ctx : Context) (obj : ObjectState) (v1 v2 : Vert) (t : ℝ)
    (hpre : PreOK ctx obj v1 v2) (ht : 0 < t) :
    ∃ o', (execute ctx t).obj = some o' ∧
      |current_distance o' v1 v2 - t| ≤ 1e-6 * current_distance obj v1 v2 := by
  have hne := hpre.2.2.2.2
  have hdpos := current_distance_pos hne
  have hd : current_distance obj v1 v2 ≠ 0 := ne_of_gt hdpos
  have het : effective_target t = t := by rw [effective_target, if_neg (not_le.mpr ht)]
  by_cases hk : |scale_factor obj v1 v2 t - 1| < 1e-6
  · refine ⟨obj, ?_, ?_⟩
    · rw [execute_preOK hpre, scalePhase_noop hd hk]
    · have h1 : scale_factor obj v1 v2 t - 1 =
          (t - current_distance obj v1 v2) / current_distance obj v1 v2 := by
        rw [scale_factor, het]
        field_simp
      rw [h1, abs_div, abs_of_pos hdpos, div_lt_iff₀ hdpos] at hk
      rw [abs_sub_comm]
      exact le_of_lt hk
  · refine ⟨applyScale obj (worldPos obj v1) (worldPos obj v2)
      (scale_factor obj v1 v2 t), ?_, ?_⟩
    · rw [execute_preOK hpre, scalePhase_scaled hd hk]
    · rw [post_distance_scaled t hne, het, sub_self, abs_zero]
      exact mul_nonneg (by norm_num) (le_of_lt hdpos)

/-- Counterexample for C1 as stated: preconditions pass, `t = 10000005 > 0`,
but with current distance 10^7 the scale factor is within 1e-6 of 1, the
operation is a no-op, and the post-operation distance misses `t` by 5, far
outside the claimed 1e-6 absolute tolerance. -/
theorem C1_counterexample :
    PreOK ctxL objW vA vC ∧ (0 : ℝ) < 10000005 ∧
      (execute ctxL 10000005).obj = some objW ∧
      ¬ |current_distance objW vA vC - 10000005| ≤ 1e-6 := by
  have hd : current_distance objW vA vC ≠ 0 := by rw [current_distance_ctxL]; norm_num
  have hsf : scale_factor objW vA vC 10000005 = 10000005 / 10000000 := by
    rw [scale_factor, current_distance_ctxL, effective_target]
    norm_num
  have hk : |scale_factor objW vA vC 10000005 - 1| < 1e-6 := by
    rw [hsf, show (10000005 : ℝ) / 10000000 - 1 = 5 / 10000000 by norm_num,
      abs_of_pos (by norm_num : (0 : ℝ) < 5 / 10000000)]
    norm_num
  refine ⟨preOK_ctxL, by norm_num, ?_, ?_⟩
  · rw [execute_preOK preOK_ctxL, scalePhase_noop hd hk]
  · rw [current_distance_ctxL,
      show (10000000 : ℝ) - 10000005 = -5 by norm_num, abs_neg,
      abs_of_pos (by norm_num : (0 : ℝ) < 5)]
    norm_num

/-- Witness for C1 (amended): untransformed object, selected vertices at
distance 2, target 1: the achieved distance is within 1e-6 * 2 of the target. -/
theorem C1_witness :
    PreOK ctxW objW vA vB ∧ (0 : ℝ) < 1 ∧
      ∃ o', (execute ctxW 1).obj = some o' ∧
        |current_distance o' vA vB - 1| ≤ 1e-6 * current_distance objW vA vB :=
  ⟨preOK_ctxW, one_pos, C1_distance_relative ctxW objW vA vB 1 preOK_ctxW one_pos⟩

/-- C2: for every invocation passing the precondition checks (with an
invertible parent transform when a parent exists), the world midpoint of the
two selected vertices recomputed through the updated transform equals the
pre-operation midpoint exactly, hence within 1e-6. -/
theorem C2_pivot_invariant (ctx : Context) (obj : ObjectState) (v1 v2 : Vert) (t : ℝ)
    (o' : ObjectState) (hpre : PreOK ctx obj v1 v2) (hP : ParentOK obj)
    (hobj : (execute ctx t).obj = some o') :
    midpoint o' v1 v2 = midpoint obj v1 v2 ∧
      ((midpoint o' v1 v2).sub (midpoint obj v1 v2)).length ≤ 1e-6 := by
  have hne := hpre.2.2.2.2
  have hd : current_distance obj v1 v2 ≠ 0 := ne_of_gt (current_distance_pos hne)
  rw [execute_preOK hpre] at hobj
  have heq : midpoint o' v1 v2 = midpoint obj v1 v2 := by
    by_cases hk : |scale_factor obj v1 v2 t - 1| < 1e-6
    · rw [scalePhase_noop hd hk] at hobj
      have hobj' : some obj = some o' := hobj
      obtain rfl := Option.some.inj hobj'
      rfl
    · rw [scalePhase_scaled hd hk] at hobj
      have hobj' : some (applyScale obj (worldPos obj v1) (worldPos obj v2)
          (scale_factor obj v1 v2 t)) = some o' := hobj
      obtain rfl := Option.some.inj hobj'
      rw [midpoint, midpoint, worldPos_applyScale obj hP _ _ _ v1,
        worldPos_applyScale obj hP _ _ _ v2, newWorldLoc, pivotOf]
      simp only [Vec3.add, Vec3.sub, Vec3.smul, half_val, Vec3.ext_iff]
      refine ⟨by ring, by ring, by ring⟩
  refine ⟨heq, ?_⟩
  rw [heq, Vec3.sub_self_eq_zero.mpr rfl, Vec3.length_eq_zero.mpr rfl]
  norm_num

/-- Witness for C2: the scaling run on the untransformed object with target 1
(halving the object) keeps the midpoint (1,0,0) fixed. -/
theorem C2_witness :
    PreOK ctxW objW vA vB ∧ ParentOK objW ∧ (execute ctxW 1).obj = some objQ ∧
      midpoint objQ vA vB = midpoint objW vA vB ∧
      ((midpoint objQ vA vB).sub (midpoint objW vA vB)).length ≤ 1e-6 := by
  have hd : current_distance objW vA vB ≠ 0 := by rw [current_distance_ctxW]; norm_num
  have hsf : scale_factor objW vA vB 1 = 1 / 2 := by
    rw [scale_factor, current_distance_ctxW, effective_target]
    norm_num
  have hk : ¬ |scale_factor objW vA vB 1 - 1| < 1e-6 := by
    rw [hsf, abs_lt]
    rintro ⟨h1, -⟩
    norm_num at h1
  have hobj : (execute ctxW 1).obj = some objQ := by
    rw [execute_preOK preOK_ctxW, scalePhase_scaled hd hk]
    rfl
  obtain ⟨h1, h2⟩ :=
    C2_pivot_invariant ctxW objW vA vB 1 objQ preOK_ctxW parentOK_objW hobj
  exact ⟨preOK_ctxW, parentOK_objW, hobj, h1, h2⟩

/-- C4: after any successful invocation, running the operator again with the
requested target equal to the distance just achieved yields a scale factor
within 1e-6 of 1 (it is exactly 1), so the second run is a reported no-op
that mutates nothing. -/
theorem C4_idempotent (ctx : Context) (obj : ObjectState) (v1 v2 : Vert) (t : ℝ)
    (o' : ObjectState) (hpre : PreOK ctx obj v1 v2)
    (hfin : (execute ctx t).status = .FINISHED)
    (hobj : (execute ctx t).obj = some o') :
    |scale_factor o' v1 v2 (current_distance o' v1 v2) - 1| < 1e-6 ∧
      (execute { ctx with active_object := some o' }
          (current_distance o' v1 v2)).status = .FINISHED ∧
      (⟨.INFO, "No scaling needed"⟩ : Report) ∈
        (execute { ctx with active_object := some o' }
          (current_distance o' v1 v2)).reports ∧
      (execute { ctx with active_object := some o' }
          (current_distance o' v1 v2)).obj = some o' := by
  have hne := hpre.2.2.2.2
  have hd : current_distance obj v1 v2 ≠ 0 := ne_of_gt (current_distance_pos hne)
  rw [execute_preOK hpre] at hobj
  have ho' : o'.objType = ObjType.MESH ∧ 0 < current_distance o' v1 v2 := by
    by_cases hk : |scale_factor obj v1 v2 t - 1| < 1e-6
    · rw [scalePhase_noop hd hk] at hobj
      have hobj' : some obj = some o' := hobj
      obtain rfl := Option.some.inj hobj'
      exact ⟨hpre.2.1, current_distance_pos hne⟩
    · rw [scalePhase_scaled hd hk] at hobj
      have hobj' : some (applyScale obj (worldPos obj v1) (worldPos obj v2)
          (scale_factor obj v1 v2 t)) = some o' := hobj
      obtain rfl := Option.some.inj hobj'
      refine ⟨hpre.2.1, ?_⟩
      rw [post_distance_scaled t hne]
      exact effective_target_pos t
  obtain ⟨hmesh', hdpos'⟩ := ho'
  have hsf1 : scale_factor o' v1 v2 (current_distance o' v1 v2) = 1 := by
    rw [scale_factor, effective_target, if_neg (not_le.mpr hdpos'),
      div_self (ne_of_gt hdpos')]
  have hk1 : |scale_factor o' v1 v2 (current_distance o' v1 v2) - 1| < 1e-6 := by
    rw [hsf1]
    norm_num
  have hne' : worldPos o' v1 ≠ worldPos o' v2 := fun h =>
    absurd (current_distance_eq_zero.mpr h) (ne_of_gt hdpos')
  have hpre' : PreOK { ctx with active_object := some o' } o' v1 v2 :=
    ⟨rfl, hmesh', hpre.2.2.1, hpre.2.2.2.1, hne'⟩
  refine ⟨hk1, ?_, ?_, ?_⟩
  · rw [execute_preOK hpre', scalePhase_noop (ne_of_gt hdpos') hk1]
  · rw [execute_preOK hpre', scalePhase_noop (ne_of_gt hdpos') hk1]
    simp
  · rw [execute_preOK hpre', scalePhase_noop (ne_of_gt hdpos') hk1]

/-- Witness for C4: first run halves the object (target 1 from distance 2);
rerunning with target equal to the achieved distance is a no-op. -/
theorem C4_witness :
    PreOK ctxW objW vA vB ∧ (execute ctxW 1).status = .FINISHED ∧
      (execute ctxW 1).obj = some objQ ∧
      |scale_factor objQ vA vB (current_distance objQ vA vB) - 1| < 1e-6 ∧
      (execute { ctxW with active_object := some objQ }
          (current_distance objQ vA vB)).status = .FINISHED ∧
      (execute { ctxW with active_object := some objQ }
          (current_distance objQ vA vB)).obj = some objQ := by
  have hd : current_distance objW vA vB ≠ 0 := by rw [current_distance_ctxW]; norm_num
  have hsf : scale_factor objW vA vB 1 = 1 / 2 := by
    rw [scale_factor, current_distance_ctxW, effective_target]
    norm_num
  have hk : ¬ |scale_factor objW vA vB 1 - 1| < 1e-6 := by
    rw [hsf, abs_lt]
    rintro ⟨h1, -⟩
    norm_num at h1
  have hfin : (execute ctxW 1).status = .FINISHED := by
    rw [execute_preOK preOK_ctxW, scalePhase_scaled hd hk]
  have hobj : (execute ctxW 1).obj = some objQ := by
    rw [execute_preOK preOK_ctxW, scalePhase_scaled hd hk]
    rfl
  obtain ⟨h1, h2, _, h4⟩ :=
    C4_idempotent ctxW objW vA vB 1 objQ preOK_ctxW hfin hobj
  exact ⟨preOK_ctxW, hfin, hobj, h1, h2, h4⟩

/-- C6: with the preconditions passing, a requested target ≤ 0 is clamped to
the minimum 1e-6, a warning is emitted, the operation still finishes and the
achieved distance is within 1e-6 of that minimum; a requested target > 0 is
used as-is with no warning. -/
theorem C6_clamp (ctx : Context) (obj : ObjectState) (v1 v2 : Vert) (t : ℝ)
    (hpre : PreOK ctx obj v1 v2) :
    (t ≤ 0 →
        effective_target t = min_target_distance ∧
          clamp_warning ∈ (execute ctx t).reports ∧
          (execute ctx t).status = .FINISHED ∧
          ∃ o', (execute ctx t).obj = some o' ∧
            |current_distance o' v1 v2 - min_target_distance| ≤ 1e-6) ∧
      (0 < t →
        effective_target t = t ∧ clamp_warning ∉ (execute ctx t).reports) := by
  have hne := hpre.2.2.2.2
  have hdpos := current_distance_pos hne
  have hd : current_distance obj v1 v2 ≠ 0 := ne_of_gt hdpos
  constructor
  · intro ht
    have het : effective_target t = min_target_distance := by
      rw [effective_target, if_pos ht]
    refine ⟨het, ?_⟩
    by_cases hk : |scale_factor obj v1 v2 t - 1| < 1e-6
    · rw [execute_preOK hpre, scalePhase_noop hd hk, if_pos ht]
      refine ⟨by simp, rfl, obj, rfl, ?_⟩
      have h1 : scale_factor obj v1 v2 t - 1 =
          (min_target_distance - current_distance obj v1 v2) /
            current_distance obj v1 v2 := by
        rw [scale_factor, het]
        field_simp
      rw [h1, abs_div, abs_of_pos hdpos, div_lt_iff₀ hdpos] at hk
      rw [abs_sub_comm, min_target_val, tol_val] at hk ⊢
      rw [abs_lt] at hk
      obtain ⟨hk1, hk2⟩ := hk
      have hub : current_distance obj v1 v2 < 1 / 999999 := by linarith
      rw [abs_le]
      constructor <;> linarith
    · rw [execute_preOK hpre, scalePhase_scaled hd hk, if_pos ht]
      refine ⟨by simp, rfl, _, rfl, ?_⟩
      rw [post_distance_scaled t hne, het, sub_self, abs_zero, tol_val]
      norm_num
  · intro ht
    have hnle : ¬ t ≤ 0 := not_le.mpr ht
    refine ⟨by rw [effective_target, if_neg hnle], ?_⟩
    by_cases hk : |scale_factor obj v1 v2 t - 1| < 1e-6
    · rw [execute_preOK hpre, scalePhase_noop hd hk, if_neg hnle]
      simp [clamp_warning]
    · rw [execute_preOK hpre, scalePhase_scaled hd hk, if_neg hnle]
      simp [clamp_warning]

/-- Witness for C6: requested target 0 on the untransformed object is clamped
to 1e-6, warned about, and the operation succeeds achieving the minimum
distance. -/
theorem C6_witness :
    PreOK ctxW objW vA vB ∧ (0 : ℝ) ≤ 0 ∧
      effective_target 0 = min_target_distance ∧
      clamp_warning ∈ (execute ctxW 0).reports ∧
      (execute ctxW 0).status = .FINISHED ∧
      ∃ o', (execute ctxW 0).obj = some o' ∧
        |current_distance o' vA vB - min_target_distance| ≤ 1e-6 := by
  obtain ⟨h1, h2, h3, h4⟩ := (C6_clamp ctxW objW vA vB 0 preOK_ctxW).1 le_rfl
  exact ⟨preOK_ctxW, le_rfl, h1, h2, h3, h4⟩

end

end VertiScale
